import Mathlib

/-!
Verification of the otlp-toolkit decode-and-search subsystem.

This file gives a shallow embedding of the telemetry decode/search core
(`src/cmd_decode.rs`, `src/cmd_search.rs`, `src/common.rs`) and proves or
refutes the frozen specification claims about it.  Bytes are natural
numbers below 256, byte sequences are lists, fallible operations return
`Option` or `Except`, and the process I/O channels (primary output,
diagnostic channel, quarantine file writes) are modelled as explicit
lists threaded through the state.
-/

namespace Otk

/-- Lowercase hexadecimal digit characters, as used by the hex crate. -/
def hexChars : List Char :=
  "0123456789abcdef".data

/-- Render one byte as two lowercase hex characters (model of hex::ToHex
for a single byte). -/
def hexByte (b : Nat) : List Char :=
  [hexChars.getD (b / 16 % 16) '0', hexChars.getD (b % 16) '0']

/-- Model of `bytes.encode_hex::<String>()` from the hex crate: lowercase
hexadecimal rendering of a byte sequence, two characters per byte. -/
def encodeHex (bs : List Nat) : String :=
  String.mk (bs.foldr (fun b acc => hexByte b ++ acc) [])

/-- The standard base64 alphabet in index order, as used by
`base64::STANDARD`. -/
def base64Alphabet : List Char :=
  "ABCDEFGHIJKLMNOPQRSTUVWXYZabcdefghijklmnopqrstuvwxyz0123456789+/".data

/-- Index of a character in the standard base64 alphabet, `none` when the
character is not a base64 symbol. -/
def b64Index (c : Char) : Option Nat :=
  base64Alphabet.findIdx? (fun d => d = c)

/-- Decode a list of 6-bit symbol values into bytes.  Full groups of four
symbols give three bytes; a trailing group of two or three symbols gives
one or two bytes provided the dangling low bits are zero (the
`decode_allow_trailing_bits = false` policy of `base64::STANDARD`); a
trailing single symbol is an invalid length. -/
def b64DecodeVals : List Nat → Option (List Nat)
  | [] => some []
  | [_] => none
  | [a, b] => if b % 16 = 0 then some [a * 4 + b / 16] else none
  | [a, b, c] =>
      if c % 4 = 0 then some [a * 4 + b / 16, b % 16 * 16 + c / 4] else none
  | a :: b :: c :: d :: rest =>
      (b64DecodeVals rest).map
        (fun tl => (a * 4 + b / 16) :: (b % 16 * 16 + c / 4) :: (c % 4 * 64 + d) :: tl)

/-- Drop trailing padding characters from a base64 text. -/
def b64StripPad (cs : List Char) : List Char :=
  (cs.reverse.dropWhile (fun c => c = '=')).reverse

/-- Model of `base64::decode_config(payload, base64::STANDARD)` (base64
crate 0.13): strip trailing padding, reject any interior padding or
non-alphabet character, then decode the 6-bit symbol stream. -/
def base64Decode (s : String) : Option (List Nat) :=
  let body := b64StripPad s.data
  if body.any (fun c => c = '=') then none
  else do
    let vals ← body.mapM b64Index
    b64DecodeVals vals

/-- Error kinds surfaced by the decode/search pipeline (the spec's error
taxonomy; in the source these are boxed `dyn Error` values from the
base64 crate, the prost codec, and std I/O). -/
inductive RunError where
  | encodingError
  | codecError
  | ioError
deriving DecidableEq, Repr

/-- Modelled from the spec: the 13 concrete telemetry message shapes of
the shape catalog (section 3 of the spec), together with the auxiliary
message types the spec names (attribute key/value pairs, the
instrumentation scope identifier, and span status).  The protobuf
definitions themselves are vendored outside the analysed sources, so the
shapes are modelled from the spec text here. -/
inductive MsgId where
  | Span | Metric | LogRecord
  | ScopeSpans | ScopeMetrics | ScopeLogs
  | Resource | ResourceSpans | ResourceMetrics | ResourceLogs
  | ExportTraceServiceRequest | ExportMetricsServiceRequest | ExportLogsServiceRequest
  | KeyValue | InstrumentationScope | Status
deriving DecidableEq, Repr

/-- Wire-level kinds a schema assigns to its known fields.  Text fields
are modelled as raw byte fields (the UTF-8 validity check of the real
codec is not modelled). -/
inductive FieldKind where
  | bytesF | stringF | varintF | fixed64F | fixed32F
  | msgF (m : MsgId)
  | repMsgF (m : MsgId)
deriving DecidableEq, Repr

/-- Modelled from the spec: the field schema of each message shape, as a
list of field number / field kind pairs.  The nesting follows section 3
of the spec (leaf signals, scope-wrapped, resource-wrapped, envelopes);
field numbers follow the standard telemetry wire schema.  Fields the
spec does not describe are absent and are handled by the unknown-field
skipping of the wire format. -/
def msgSchema : MsgId → List (Nat × FieldKind)
  | .Span =>
      [(1, .bytesF), (2, .bytesF), (5, .stringF),
       (9, .repMsgF .KeyValue), (15, .msgF .Status)]
  | .Metric => [(1, .stringF), (2, .stringF), (3, .stringF)]
  | .LogRecord => [(1, .fixed64F), (9, .bytesF), (10, .bytesF)]
  | .ScopeSpans =>
      [(1, .msgF .InstrumentationScope), (2, .repMsgF .Span), (3, .stringF)]
  | .ScopeMetrics =>
      [(1, .msgF .InstrumentationScope), (2, .repMsgF .Metric), (3, .stringF)]
  | .ScopeLogs =>
      [(1, .msgF .InstrumentationScope), (2, .repMsgF .LogRecord), (3, .stringF)]
  | .Resource => [(1, .repMsgF .KeyValue), (2, .varintF)]
  | .ResourceSpans =>
      [(1, .msgF .Resource), (2, .repMsgF .ScopeSpans), (3, .stringF)]
  | .ResourceMetrics =>
      [(1, .msgF .Resource), (2, .repMsgF .ScopeMetrics), (3, .stringF)]
  | .ResourceLogs =>
      [(1, .msgF .Resource), (2, .repMsgF .ScopeLogs), (3, .stringF)]
  | .ExportTraceServiceRequest => [(1, .repMsgF .ResourceSpans)]
  | .ExportMetricsServiceRequest => [(1, .repMsgF .ResourceMetrics)]
  | .ExportLogsServiceRequest => [(1, .repMsgF .ResourceLogs)]
  | .KeyValue => [(1, .stringF), (2, .stringF)]
  | .InstrumentationScope => [(1, .stringF), (2, .stringF)]
  | .Status => [(2, .stringF), (3, .varintF)]

/-- Decoded field values.  A message value is the association list of its
field numbers to current values; unset submessage fields are `vnone` and
repeated fields accumulate into `vrep`. -/
inductive PValue where
  | vint (n : Nat)
  | vbytes (bs : List Nat)
  | vmsg (fields : List (Nat × PValue))
  | vnone
  | vrep (vs : List PValue)
deriving Repr

/-- Default (zero) value of a field of the given kind, as the wire format
prescribes for absent fields. -/
def defaultFor : FieldKind → PValue
  | .bytesF => .vbytes []
  | .stringF => .vbytes []
  | .varintF => .vint 0
  | .fixed64F => .vint 0
  | .fixed32F => .vint 0
  | .msgF _ => .vnone
  | .repMsgF _ => .vrep []

/-- Default message value of a shape: every schema field at its default. -/
def defaultMsg (m : MsgId) : List (Nat × PValue) :=
  (msgSchema m).map (fun f => (f.1, defaultFor f.2))

/-- Overwrite the value of a field in a message value (last occurrence of
a non-repeated field wins, as in the wire format). -/
def setField : List (Nat × PValue) → Nat → PValue → List (Nat × PValue)
  | [], _, _ => []
  | (n, v) :: rest, k, nv =>
      if n = k then (n, nv) :: rest else (n, v) :: setField rest k nv

/-- Append one decoded occurrence to a repeated field of a message value. -/
def appendRep : List (Nat × PValue) → Nat → PValue → List (Nat × PValue)
  | [], _, _ => []
  | (n, v) :: rest, k, nv =>
      if n = k then
        (n, match v with
            | .vrep vs => .vrep (vs ++ [nv])
            | _ => .vrep [nv]) :: rest
      else (n, v) :: appendRep rest k nv

/-- Decode a base-128 varint: up to ten little-endian 7-bit groups, the
last with a clear continuation bit.  Fails on a truncated buffer or when
no terminating byte occurs within ten bytes; the value is reduced modulo
2 to the 64. -/
def decodeVarintAux : Nat → Nat → Nat → List Nat → Option (Nat × List Nat)
  | 0, _, _, _ => none
  | _ + 1, _, _, [] => none
  | fuel + 1, shift, acc, b :: rest =>
      let acc2 := acc + b % 128 * 2 ^ shift
      if b % 256 < 128 then some (acc2 % 2 ^ 64, rest)
      else decodeVarintAux fuel (shift + 7) acc2 rest

/-- Entry point of varint decoding. -/
def decodeVarint (bs : List Nat) : Option (Nat × List Nat) :=
  decodeVarintAux 10 0 0 bs

/-- Take exactly `n` bytes from the front of a buffer, failing on
underflow (the truncated-field error of the wire format). -/
def takeBytes (n : Nat) (bs : List Nat) : Option (List Nat × List Nat) :=
  if n ≤ bs.length then some (bs.take n, bs.drop n) else none

/-- Little-endian interpretation of a byte list as a natural number. -/
def leNat (bs : List Nat) : Nat :=
  bs.foldr (fun b acc => b % 256 + 256 * acc) 0

/-- Modelled from the spec: the wire-format decode loop of the external
protobuf-style codec (the real implementation is the prost dependency,
outside the analysed sources).  While bytes remain, read a tag varint,
split it into field number and wire type, reject field number zero,
merge a known field after checking its wire type, and skip an unknown
field by its wire type; group wire types are rejected.  The fuel is an
upper bound on loop iterations; every reachable call consumes at least
one byte per iteration, so a fuel of one more than the buffer length
never runs out. -/
def decodeFields : Nat → MsgId → List (Nat × PValue) → List Nat → Option (List (Nat × PValue))
  | 0, _, _, _ => none
  | _ + 1, _, acc, [] => some acc
  | fuel + 1, m, acc, bs => do
      let (tag, r1) ← decodeVarint bs
      let fieldNo := tag / 8
      let wt := tag % 8
      if fieldNo = 0 then none
      else
        match List.lookup fieldNo (msgSchema m) with
        | some .bytesF =>
            if wt = 2 then do
              let (len, r2) ← decodeVarint r1
              let (content, r3) ← takeBytes len r2
              decodeFields fuel m (setField acc fieldNo (.vbytes content)) r3
            else none
        | some .stringF =>
            if wt = 2 then do
              let (len, r2) ← decodeVarint r1
              let (content, r3) ← takeBytes len r2
              decodeFields fuel m (setField acc fieldNo (.vbytes content)) r3
            else none
        | some .varintF =>
            if wt = 0 then do
              let (v, r2) ← decodeVarint r1
              decodeFields fuel m (setField acc fieldNo (.vint v)) r2
            else none
        | some .fixed64F =>
            if wt = 1 then do
              let (content, r2) ← takeBytes 8 r1
              decodeFields fuel m (setField acc fieldNo (.vint (leNat content))) r2
            else none
        | some .fixed32F =>
            if wt = 5 then do
              let (content, r2) ← takeBytes 4 r1
              decodeFields fuel m (setField acc fieldNo (.vint (leNat content))) r2
            else none
        | some (.msgF sub) =>
            if wt = 2 then do
              let (len, r2) ← decodeVarint r1
              let (content, r3) ← takeBytes len r2
              let v ← decodeFields fuel sub (defaultMsg sub) content
              decodeFields fuel m (setField acc fieldNo (.vmsg v)) r3
            else none
        | some (.repMsgF sub) =>
            if wt = 2 then do
              let (len, r2) ← decodeVarint r1
              let (content, r3) ← takeBytes len r2
              let v ← decodeFields fuel sub (defaultMsg sub) content
              decodeFields fuel m (appendRep acc fieldNo (.vmsg v)) r3
            else none
        | none =>
            match wt with
            | 0 => do
                let (_, r2) ← decodeVarint r1
                decodeFields fuel m acc r2
            | 1 => do
                let (_, r2) ← takeBytes 8 r1
                decodeFields fuel m acc r2
            | 2 => do
                let (len, r2) ← decodeVarint r1
                let (_, r3) ← takeBytes len r2
                decodeFields fuel m acc r3
            | 5 => do
                let (_, r2) ← takeBytes 4 r1
                decodeFields fuel m acc r2
            | _ => none

/-- Modelled from the spec: decode a byte buffer as a message of the
given shape.  Starts from the shape's default value, with enough fuel
for the whole buffer. -/
def pdecode (m : MsgId) (bs : List Nat) : Option (List (Nat × PValue)) :=
  decodeFields (bs.length + 1) m (defaultMsg m) bs

namespace proto

/-- Modelled from the spec: a span leaf signal, carrying the 16-byte
trace identifier that is the correlation key for search.  Only the
fields the search engine touches are carried. -/
structure Span where
  trace_id : List Nat
deriving DecidableEq, Repr

/-- Modelled from the spec: a scope-wrapped sequence of spans. -/
structure ScopeSpans where
  spans : List Span
deriving DecidableEq, Repr

/-- Modelled from the spec: a resource-wrapped sequence of scope-wrapped
span groups. -/
structure ResourceSpans where
  scope_spans : List ScopeSpans
deriving DecidableEq, Repr

/-- Modelled from the spec: the trace-export envelope, an ordered
sequence of resource-wrapped elements. -/
structure ExportTraceServiceRequest where
  resource_spans : List ResourceSpans
deriving DecidableEq, Repr

end proto

/-- Read a bytes field out of a decoded message value. -/
def asBytes : Option PValue → List Nat
  | some (.vbytes bs) => bs
  | _ => []

/-- Read the accumulated submessage occurrences of a repeated field out
of a decoded message value. -/
def asRepMsgs : Option PValue → List (List (Nat × PValue))
  | some (.vrep vs) =>
      vs.filterMap (fun v => match v with | .vmsg f => some f | _ => none)
  | _ => []

/-- Structured view of a decoded span message value. -/
def spanOfVal (v : List (Nat × PValue)) : proto.Span :=
  ⟨asBytes (List.lookup 1 v)⟩

/-- Structured view of a decoded scope-spans message value. -/
def scopeSpansOfVal (v : List (Nat × PValue)) : proto.ScopeSpans :=
  ⟨(asRepMsgs (List.lookup 2 v)).map spanOfVal⟩

/-- Structured view of a decoded resource-spans message value. -/
def resourceSpansOfVal (v : List (Nat × PValue)) : proto.ResourceSpans :=
  ⟨(asRepMsgs (List.lookup 2 v)).map scopeSpansOfVal⟩

/-- Structured view of a decoded trace-export envelope value. -/
def traceRequestOfVal (v : List (Nat × PValue)) : proto.ExportTraceServiceRequest :=
  ⟨(asRepMsgs (List.lookup 1 v)).map resourceSpansOfVal⟩

/-- Model of `ExportTraceServiceRequest::decode` as the search command
uses it: wire-decode the buffer as the trace-export envelope and take
its structured view. -/
def decodeTraceRequest (bs : List Nat) : Option proto.ExportTraceServiceRequest :=
  (pdecode .ExportTraceServiceRequest bs).map traceRequestOfVal

/-- The `DecodeType` selector enumeration of `cmd_decode.rs`: the Direct
pseudo-shape plus the 13 concrete message shapes, in source order. -/
inductive DecodeType where
  | Direct
  | Span | Metric | LogRecord
  | ScopeSpans | ScopeMetrics | ScopeLogs
  | Resource | ResourceSpans | ResourceMetrics | ResourceLogs
  | ExportTraceServiceRequest | ExportMetricsServiceRequest | ExportLogsServiceRequest
deriving DecidableEq, Repr

/-- One record of primary output, as produced by `print_stuffs`: either
the raw bytes of a Direct passthrough or a decoded message value, with
the pretty flag that selects the indented rendering. -/
inductive Rendered where
  | direct (bs : List Nat) (pretty : Bool)
  | msg (m : MsgId) (v : List (Nat × PValue)) (pretty : Bool)

/-- Model of `decode_struct` in `cmd_decode.rs`: the exhaustive
14-branch match on the selector.  The Direct branch prints the raw
payload without touching the codec; every other branch runs the codec
(passed as the `codec` dependency, instantiated with `pdecode` in the
pipeline) for its shape and propagates a codec failure. -/
def decode_struct (codec : MsgId → List Nat → Option (List (Nat × PValue)))
    (name : DecodeType) (payload : List Nat) (pretty : Bool) :
    Except RunError Rendered :=
  match name with
  | .Direct => .ok (.direct payload pretty)
  | .Span =>
      match codec .Span payload with
      | some v => .ok (.msg .Span v pretty)
      | none => .error .codecError
  | .Metric =>
      match codec .Metric payload with
      | some v => .ok (.msg .Metric v pretty)
      | none => .error .codecError
  | .LogRecord =>
      match codec .LogRecord payload with
      | some v => .ok (.msg .LogRecord v pretty)
      | none => .error .codecError
  | .ScopeSpans =>
      match codec .ScopeSpans payload with
      | some v => .ok (.msg .ScopeSpans v pretty)
      | none => .error .codecError
  | .ScopeMetrics =>
      match codec .ScopeMetrics payload with
      | some v => .ok (.msg .ScopeMetrics v pretty)
      | none => .error .codecError
  | .ScopeLogs =>
      match codec .ScopeLogs payload with
      | some v => .ok (.msg .ScopeLogs v pretty)
      | none => .error .codecError
  | .Resource =>
      match codec .Resource payload with
      | some v => .ok (.msg .Resource v pretty)
      | none => .error .codecError
  | .ResourceSpans =>
      match codec .ResourceSpans payload with
      | some v => .ok (.msg .ResourceSpans v pretty)
      | none => .error .codecError
  | .ResourceMetrics =>
      match codec .ResourceMetrics payload with
      | some v => .ok (.msg .ResourceMetrics v pretty)
      | none => .error .codecError
  | .ResourceLogs =>
      match codec .ResourceLogs payload with
      | some v => .ok (.msg .ResourceLogs v pretty)
      | none => .error .codecError
  | .ExportTraceServiceRequest =>
      match codec .ExportTraceServiceRequest payload with
      | some v => .ok (.msg .ExportTraceServiceRequest v pretty)
      | none => .error .codecError
  | .ExportMetricsServiceRequest =>
      match codec .ExportMetricsServiceRequest payload with
      | some v => .ok (.msg .ExportMetricsServiceRequest v pretty)
      | none => .error .codecError
  | .ExportLogsServiceRequest =>
      match codec .ExportLogsServiceRequest payload with
      | some v => .ok (.msg .ExportLogsServiceRequest v pretty)
      | none => .error .codecError

/-- The 62-character alphanumeric alphabet of the rand crate's
`Alphanumeric` distribution, in its sampling order. -/
def alnumChars : List Char :=
  "ABCDEFGHIJKLMNOPQRSTUVWXYZabcdefghijklmnopqrstuvwxyz0123456789".data

/-- Model of the quarantine suffix generation: sample seven alphanumeric
characters from the random stream `g`, starting at stream position
`pos`. -/
def genSuffix (g : Nat → Fin 62) (pos : Nat) : String :=
  String.mk ((List.range 7).map (fun i => alnumChars.getD (g (pos + i)).val 'A'))

/-- Observable state of one streaming decode run: primary output records,
quarantine file writes (name and content), diagnostic-channel lines, and
the position consumed so far in the random stream. -/
structure StreamState where
  outputs : List Rendered
  files : List (String × List Nat)
  diag : List String
  rngPos : Nat

/-- The empty initial state of a run. -/
def initState : StreamState :=
  { outputs := [], files := [], diag := [], rngPos := 0 }

/-- Model of `decode_struct_b64` in `cmd_decode.rs`.  The base64 decode
failure propagates as an error (the source applies the question-mark
operator to it); a codec failure on the decoded bytes is caught: the
error is reported to the diagnostic channel, the raw bytes are written
to a quarantine file named with the fixed prefix, a dot, a random
7-character alphanumeric suffix and a `.bin` extension, the filename is
echoed to the diagnostic channel, and the call returns successfully so
the stream continues. -/
def decode_struct_b64 (codec : MsgId → List Nat → Option (List (Nat × PValue)))
    (g : Nat → Fin 62) (name : DecodeType) (payload : String) (pretty : Bool)
    (st : StreamState) : Except RunError StreamState :=
  match base64Decode payload with
  | none => .error .encodingError
  | some bs =>
    match decode_struct codec name bs pretty with
    | .ok r => .ok { st with outputs := st.outputs ++ [r] }
    | .error _ =>
        let filename := "otk." ++ genSuffix g st.rngPos ++ ".bin"
        .ok { st with
              files := st.files ++ [(filename, bs)],
              diag := st.diag ++ ["error during decoding",
                                  "data dumped as " ++ filename],
              rngPos := st.rngPos + 7 }

/-- Model of the line loop of `do_decode` in streaming (base64) mode:
process lines in order, stopping at the first propagated error. -/
def runLines (codec : MsgId → List Nat → Option (List (Nat × PValue)))
    (g : Nat → Fin 62) (name : DecodeType) (pretty : Bool) :
    List String → StreamState → Except RunError StreamState
  | [], st => .ok st
  | l :: rest, st =>
    match decode_struct_b64 codec g name l pretty st with
    | .error e => .error e
    | .ok st2 => runLines codec g name pretty rest st2

/-- Streaming-mode entry point: run the line loop from the empty state. -/
def do_decode_stream (codec : MsgId → List Nat → Option (List (Nat × PValue)))
    (g : Nat → Fin 62) (name : DecodeType) (pretty : Bool)
    (lines : List String) : Except RunError StreamState :=
  runLines codec g name pretty lines initState

/-- Model of binary-mode decoding of one byte buffer: decode it exactly
once through the dispatcher; a success is the single output, a failure
propagates with no output. -/
def do_decode_binary (codec : MsgId → List Nat → Option (List (Nat × PValue)))
    (name : DecodeType) (input : List Nat) (pretty : Bool) :
    Except RunError (List Rendered) :=
  match decode_struct codec name input pretty with
  | .ok r => .ok [r]
  | .error e => .error e

/-- Model of `BufRead::fill_buf` on a reader whose underlying source
delivers the given chunks: one buffered read returns the first chunk
only. -/
def fill_buf (chunks : List (List Nat)) : List Nat :=
  chunks.headD []

/-- Model of `Read::read_to_end` on the same source: the concatenation
of every chunk. -/
def read_to_end (chunks : List (List Nat)) : List Nat :=
  chunks.flatten

/-- Binary mode over standard input, as `do_decode` performs it: decode
the bytes of a single `fill_buf` call. -/
def do_decode_binary_stdin (codec : MsgId → List Nat → Option (List (Nat × PValue)))
    (name : DecodeType) (chunks : List (List Nat)) (pretty : Bool) :
    Except RunError (List Rendered) :=
  do_decode_binary codec name (fill_buf chunks) pretty

/-- Binary mode over a file, as `do_decode` performs it: decode the
bytes of `read_to_end`. -/
def do_decode_binary_file (codec : MsgId → List Nat → Option (List (Nat × PValue)))
    (name : DecodeType) (chunks : List (List Nat)) (pretty : Bool) :
    Except RunError (List Rendered) :=
  do_decode_binary codec name (read_to_end chunks) pretty

/-- The option record of the search command (query, verbose flag, pretty
flag). -/
structure SearchOpts where
  trace_id : Option String
  verbose : Bool
  pretty : Bool

/-- The trace identifiers of every span of a request in the source's
traversal order: resource-major, scope-minor, span-innermost, rendered
in lowercase hexadecimal. -/
def allTraceIds (body : proto.ExportTraceServiceRequest) : List String :=
  body.resource_spans.flatMap (fun rs =>
    rs.scope_spans.flatMap (fun ils =>
      ils.spans.map (fun span => encodeHex span.trace_id)))

/-- The lazy iterator pipeline of the search: pull identifiers in
traversal order, emitting each pulled identifier, and stop right after
the first one equal to the query (the short-circuit of `any`).  Returns
the emitted identifiers and whether a match occurred. -/
def scanIds (q : String) : List String → List String × Bool
  | [] => ([], false)
  | i :: rest =>
      if i = q then ([i], true)
      else
        let p := scanIds q rest
        (i :: p.1, p.2)

/-- Observable standard-output of one processed search line, split by
kind of printed line.  Both kinds go to the same stream: the search
command prints the visited identifiers and the matched request alike
with plain standard-output printing (there is no separate diagnostic
stream in its match-and-report code).  `ids` are the identifier lines,
printed while visiting and therefore before any request line; `output`
is the request print (the whole request with the pretty flag).
`searchStdout` below assembles the actual stream. -/
structure SearchOut where
  ids : List String
  output : List (proto.ExportTraceServiceRequest × Bool)
deriving DecidableEq, Repr

/-- One line of the search command's standard output: either a visited
trace identifier (verbose mode) or a whole printed request. -/
inductive SearchLine where
  | ident (id : String)
  | request (body : proto.ExportTraceServiceRequest) (pretty : Bool)
deriving DecidableEq, Repr

/-- The single standard-output stream of one processed search line, in
print order: every identifier line is printed during the lazy matching
pass, hence before the request print that follows a successful match. -/
def searchStdout (o : SearchOut) : List SearchLine :=
  o.ids.map SearchLine.ident ++ o.output.map (fun p => SearchLine.request p.1 p.2)

/-- The match-and-report part of `process` in `cmd_search.rs`, applied
to an already decoded request.  With no query nothing happens; with a
query, identifiers are visited lazily (stopping after the first match),
each visited identifier is printed to standard output when verbose is
set, and the whole request is printed to the same standard output
exactly when a match occurred. -/
def processBody (body : proto.ExportTraceServiceRequest) (s : SearchOpts) : SearchOut :=
  match s.trace_id with
  | none => { ids := [], output := [] }
  | some id =>
      let p := scanIds id (allTraceIds body)
      { ids := if s.verbose then p.1 else [],
        output := if p.2 then [(body, s.pretty)] else [] }

/-- Model of `process` in `cmd_search.rs`: base64-decode the line and
wire-decode the bytes as a trace-export envelope, propagating a failure
of either layer as an error, then match and report. -/
def process (payload : String) (s : SearchOpts) : Except RunError SearchOut :=
  match base64Decode payload with
  | none => .error .encodingError
  | some bs =>
    match decodeTraceRequest bs with
    | none => .error .codecError
    | some body => .ok (processBody body s)

/-- Model of the line loop of `do_search`: process lines in order,
stopping at the first propagated error. -/
def do_search (lines : List String) (s : SearchOpts) : Except RunError (List SearchOut) :=
  match lines with
  | [] => .ok []
  | l :: rest =>
    match process l s with
    | .error e => .error e
    | .ok o =>
      match do_search rest s with
      | .error e => .error e
      | .ok os => .ok (o :: os)

/-- The error enumeration of `otk_error.rs`. -/
inductive OTKError where
  | ParseError (msg : String)
  | UnimplementedError (msg : String)
  | InvalidArgumentError (msg : String)
deriving DecidableEq, Repr

/-- The key/value pair of `common.rs`. -/
structure KeyValue where
  k : String
  v : String
deriving DecidableEq, Repr

/-- Model of one `next()` call on `s.split(sep)` followed by
`remainder()`: the characters before the first separator, and the
characters after it when the separator occurs (`none` when the iterator
is exhausted because no separator occurred). -/
def splitRemainder (sep : Char) : List Char → List Char × Option (List Char)
  | [] => ([], none)
  | c :: rest =>
      if c = sep then ([], some rest)
      else
        let p := splitRemainder sep rest
        (c :: p.1, p.2)

/-- Model of `KeyValue::from_str` in `common.rs`: split at the first
equals sign; the first fragment is the key, the remainder is the value,
and a missing remainder (no equals sign anywhere) is a parse error.
The source's `ok_or_else` guard on the first fragment can never fire
because splitting always yields at least one fragment. -/
def KeyValue.from_str (s : String) : Except OTKError KeyValue :=
  let p := splitRemainder '=' s.data
  match p.2 with
  | none => .error (.ParseError "invalid format (expect key=value)")
  | some v => .ok { k := String.mk p.1, v := String.mk v }

/-- A match is found by the lazy scan exactly when the query occurs in
the identifier list. -/
theorem scanIds_snd (q : String) : ∀ ids : List String,
    ((scanIds q ids).2 = true) ↔ q ∈ ids := by
  intro ids
  induction ids with
  | nil => simp [scanIds]
  | cons i rest ih =>
      by_cases h : i = q
      · subst h
        simp [scanIds]
      · simp only [scanIds, if_neg h, List.mem_cons]
        constructor
        · intro h2
          exact Or.inr (ih.mp h2)
        · intro h2
          rcases h2 with h2 | h2
          · exact absurd h2.symm h
          · exact ih.mpr h2

/-- The identifiers emitted by the lazy scan: everything up to and
including the first match when one occurs, the full list otherwise. -/
theorem scanIds_fst (q : String) : ∀ ids : List String,
    (scanIds q ids).1 =
      if q ∈ ids then ids.takeWhile (fun i => i != q) ++ [q] else ids := by
  intro ids
  induction ids with
  | nil => simp [scanIds]
  | cons i rest ih =>
      by_cases h : i = q
      · subst h
        simp [scanIds, List.takeWhile_cons]
      · have hne : (i != q) = true := by simp [h]
        by_cases hm : q ∈ rest
        · have hm2 : q ∈ i :: rest := List.mem_cons_of_mem i hm
          simp only [scanIds, if_neg h, if_pos hm, if_pos hm2, List.takeWhile_cons, hne] at ih ⊢
          simp [ih, if_pos hm]
        · have hm2 : q ∉ i :: rest := by
            intro hc
            rcases List.mem_cons.mp hc with hc | hc
            · exact h hc.symm
            · exact hm hc
          simp only [scanIds, if_neg h, if_neg hm, if_neg hm2] at ih ⊢
          simp [ih]

/-- Membership in the traversal-order identifier list is exactly the
existence of a span whose rendered identifier equals the query. -/
theorem mem_allTraceIds (q : String) (body : proto.ExportTraceServiceRequest) :
    q ∈ allTraceIds body ↔
      ∃ rs ∈ body.resource_spans, ∃ ss ∈ rs.scope_spans, ∃ sp ∈ ss.spans,
        encodeHex sp.trace_id = q := by
  simp [allTraceIds, List.mem_flatMap, List.mem_map, eq_comm]

/-- Characterisation of one split step with remainder: the prefix before
the first separator, and the suffix after it when the separator occurs. -/
theorem splitRemainder_spec (sep : Char) : ∀ cs : List Char,
    splitRemainder sep cs =
      if sep ∈ cs then
        (cs.takeWhile (fun c => c != sep), some ((cs.dropWhile (fun c => c != sep)).tail))
      else (cs, none) := by
  intro cs
  induction cs with
  | nil => simp [splitRemainder]
  | cons c rest ih =>
      by_cases h : c = sep
      · subst h
        simp [splitRemainder, List.takeWhile_cons, List.dropWhile_cons]
      · have hne : (c != sep) = true := by simp [h]
        have hmem : sep ∈ c :: rest ↔ sep ∈ rest := by
          constructor
          · intro hc
            rcases List.mem_cons.mp hc with hc | hc
            · exact absurd hc.symm h
            · exact hc
          · exact fun hc => List.mem_cons_of_mem c hc
        by_cases hm : sep ∈ rest
        · simp only [splitRemainder, if_neg h, if_pos hm, if_pos (hmem.mpr hm),
            List.takeWhile_cons, List.dropWhile_cons, hne] at ih ⊢
          simp [ih, if_pos hm]
        · simp only [splitRemainder, if_neg h, if_neg hm, if_neg (fun hc => hm (hmem.mp hc))] at ih ⊢
          simp [ih]

/-- One fully valid line appends its decoded record to the outputs and
changes nothing else. -/
theorem decode_struct_b64_valid
    (codec : MsgId → List Nat → Option (List (Nat × PValue)))
    (g : Nat → Fin 62) (name : DecodeType) (l : String) (pretty : Bool)
    (st : StreamState) (b : List Nat) (r : Rendered)
    (hb : base64Decode l = some b)
    (hd : decode_struct codec name b pretty = Except.ok r) :
    decode_struct_b64 codec g name l pretty st =
      Except.ok { st with outputs := st.outputs ++ [r] } := by
  simp [decode_struct_b64, hb, hd]

/-- Running the line loop over fully valid lines succeeds, appends one
output per line, and leaves the quarantine list untouched. -/
theorem runLines_valid
    (codec : MsgId → List Nat → Option (List (Nat × PValue)))
    (g : Nat → Fin 62) (name : DecodeType) (pretty : Bool) :
    ∀ (xs : List String) (st : StreamState),
      (∀ l ∈ xs, ∃ b r, base64Decode l = some b ∧
          decode_struct codec name b pretty = Except.ok r) →
      ∃ st2, runLines codec g name pretty xs st = Except.ok st2 ∧
        st2.outputs.length = st.outputs.length + xs.length ∧
        st2.files = st.files := by
  intro xs
  induction xs with
  | nil =>
      intro st _
      exact ⟨st, rfl, by simp, rfl⟩
  | cons l rest ih =>
      intro st h
      obtain ⟨b, r, hb, hd⟩ := h l (List.mem_cons_self l rest)
      obtain ⟨st2, hrun, hout, hfiles⟩ :=
        ih { st with outputs := st.outputs ++ [r] }
          (fun l2 hl2 => h l2 (List.mem_cons_of_mem l hl2))
      refine ⟨st2, ?_, ?_, ?_⟩
      · simp [runLines, decode_struct_b64_valid codec g name l pretty st b r hb hd, hrun]
      · simp only [hout, List.length_append, List.length_cons]
        simp
        omega
      · exact hfiles

/-- Splitting the line loop across a list append. -/
theorem runLines_append
    (codec : MsgId → List Nat → Option (List (Nat × PValue)))
    (g : Nat → Fin 62) (name : DecodeType) (pretty : Bool) :
    ∀ (xs ys : List String) (st : StreamState),
      runLines codec g name pretty (xs ++ ys) st =
        match runLines codec g name pretty xs st with
        | .ok st2 => runLines codec g name pretty ys st2
        | .error e => .error e := by
  intro xs
  induction xs with
  | nil => intro ys st; rfl
  | cons l rest ih =>
      intro ys st
      simp only [List.cons_append, runLines]
      cases decode_struct_b64 codec g name l pretty st with
      | error e => rfl
      | ok st2 => exact ih ys st2

/-- C1, counterexample: the claim as stated is false.  In the 3-line
stream where line 2 is invalid base64 and lines 1 and 3 are valid
encodings of the selected shape, the pipeline aborts with an encoding
error instead of quarantining the line and succeeding: the base64-layer
failure propagates out of the per-line handler. -/
theorem C1_counterexample :
    base64Decode "" = some [] ∧
    base64Decode "!" = none ∧
    decode_struct pdecode DecodeType.Span [] false =
      Except.ok (Rendered.msg MsgId.Span (defaultMsg MsgId.Span) false) ∧
    do_decode_stream pdecode (fun _ => 0) DecodeType.Span false ["", "!", ""] =
      Except.error RunError.encodingError :=
  ⟨rfl, rfl, rfl, rfl⟩

/-- C1, amended: in streaming mode, for every input stream in which one
line fails to decode at the wire-format layer (its base64 layer
succeeding) while all other lines are valid, the pipeline does not
abort: it emits one output per valid line, writes exactly one quarantine
file, and the run finishes with success status.  (A failure at the
base64 layer, by contrast, aborts the run.) -/
theorem C1_streaming_wire_fault_isolated
    (g : Nat → Fin 62) (name : DecodeType) (pretty : Bool)
    (pre post : List String) (bad : String) (bs : List Nat)
    (hvalid : ∀ l ∈ pre ++ post, ∃ b r, base64Decode l = some b ∧
        decode_struct pdecode name b pretty = Except.ok r)
    (hb : base64Decode bad = some bs)
    (hd : decode_struct pdecode name bs pretty = Except.error RunError.codecError) :
    ∃ st, do_decode_stream pdecode g name pretty (pre ++ bad :: post) = Except.ok st ∧
      st.outputs.length = pre.length + post.length ∧
      st.files.length = 1 := by
  have hpre : ∀ l ∈ pre, ∃ b r, base64Decode l = some b ∧
      decode_struct pdecode name b pretty = Except.ok r :=
    fun l hl => hvalid l (List.mem_append_left _ hl)
  have hpost : ∀ l ∈ post, ∃ b r, base64Decode l = some b ∧
      decode_struct pdecode name b pretty = Except.ok r :=
    fun l hl => hvalid l (List.mem_append_right _ hl)
  obtain ⟨st1, hrun1, hout1, hfiles1⟩ :=
    runLines_valid pdecode g name pretty pre initState hpre
  have hstep : decode_struct_b64 pdecode g name bad pretty st1 =
      Except.ok { st1 with
        files := st1.files ++ [("otk." ++ genSuffix g st1.rngPos ++ ".bin", bs)],
        diag := st1.diag ++ ["error during decoding",
          "data dumped as " ++ ("otk." ++ genSuffix g st1.rngPos ++ ".bin")],
        rngPos := st1.rngPos + 7 } := by
    simp [decode_struct_b64, hb, hd]
  obtain ⟨st2, hrun2, hout2, hfiles2⟩ :=
    runLines_valid pdecode g name pretty post
      { st1 with
        files := st1.files ++ [("otk." ++ genSuffix g st1.rngPos ++ ".bin", bs)],
        diag := st1.diag ++ ["error during decoding",
          "data dumped as " ++ ("otk." ++ genSuffix g st1.rngPos ++ ".bin")],
        rngPos := st1.rngPos + 7 } hpost
  refine ⟨st2, ?_, ?_, ?_⟩
  · unfold do_decode_stream
    rw [runLines_append pdecode g name pretty pre (bad :: post) initState, hrun1]
    simp only [runLines, hstep]
    exact hrun2
  · simp only [initState, List.length_nil] at hout1
    simp only [hout2]
    simp only [hout1]
    omega
  · rw [hfiles2]
    simp only [List.length_append, List.length_cons, List.length_nil]
    rw [hfiles1]
    simp [initState]

/-- C1, witness: a concrete 3-line stream whose middle line is valid
base64 of bytes the selected shape rejects; the run succeeds with two
outputs and one quarantine file. -/
theorem C1_streaming_wire_fault_isolated_witness :
    ∃ st, do_decode_stream pdecode (fun _ => 0) DecodeType.Span false
        (([""] : List String) ++ "AAAA" :: [""]) = Except.ok st ∧
      st.outputs.length = (([""] : List String)).length + (([""] : List String)).length ∧
      st.files.length = 1 := by
  refine C1_streaming_wire_fault_isolated (fun _ => 0) DecodeType.Span false
    [""] [""] "AAAA" [0, 0, 0] ?_ rfl rfl
  intro l hl
  have hl2 : l = "" := by
    simpa using hl
  subst hl2
  exact ⟨[], Rendered.msg MsgId.Span (defaultMsg MsgId.Span) false, rfl, rfl⟩

/-- Every character the suffix generator can emit belongs to the
62-character alphanumeric alphabet. -/
theorem alnum_getD_mem : ∀ j : Fin 62, alnumChars.getD j.val 'A' ∈ alnumChars := by
  decide

/-- C6 (confirmed): in streaming mode, whenever the wire-format decode of
one line's base64-decoded bytes fails, the pipeline reports the error to
the diagnostic channel, writes exactly those decoded bytes to a file
named with the fixed prefix, a dot, a 7-character alphanumeric random
suffix and the `.bin` extension (a bare filename, hence the current
working directory), echoes the filename to the diagnostic channel, and
continues with the next line. -/
theorem C6_quarantine_on_codec_failure
    (g : Nat → Fin 62) (name : DecodeType) (payload : String) (pretty : Bool)
    (st : StreamState) (bs : List Nat) (rest : List String)
    (hb : base64Decode payload = some bs)
    (hd : decode_struct pdecode name bs pretty = Except.error RunError.codecError) :
    decode_struct_b64 pdecode g name payload pretty st =
      Except.ok { st with
        files := st.files ++ [("otk." ++ genSuffix g st.rngPos ++ ".bin", bs)],
        diag := st.diag ++ ["error during decoding",
          "data dumped as " ++ ("otk." ++ genSuffix g st.rngPos ++ ".bin")],
        rngPos := st.rngPos + 7 } ∧
    (genSuffix g st.rngPos).length = 7 ∧
    (∀ c ∈ (genSuffix g st.rngPos).data, c ∈ alnumChars) ∧
    runLines pdecode g name pretty (payload :: rest) st =
      runLines pdecode g name pretty rest { st with
        files := st.files ++ [("otk." ++ genSuffix g st.rngPos ++ ".bin", bs)],
        diag := st.diag ++ ["error during decoding",
          "data dumped as " ++ ("otk." ++ genSuffix g st.rngPos ++ ".bin")],
        rngPos := st.rngPos + 7 } := by
  have hstep : decode_struct_b64 pdecode g name payload pretty st =
      Except.ok { st with
        files := st.files ++ [("otk." ++ genSuffix g st.rngPos ++ ".bin", bs)],
        diag := st.diag ++ ["error during decoding",
          "data dumped as " ++ ("otk." ++ genSuffix g st.rngPos ++ ".bin")],
        rngPos := st.rngPos + 7 } := by
    simp [decode_struct_b64, hb, hd]
  refine ⟨hstep, ?_, ?_, ?_⟩
  · simp [genSuffix]
  · intro c hc
    simp only [genSuffix, String.data] at hc
    simp only [List.mem_map, List.mem_range] at hc
    obtain ⟨i, _, hi⟩ := hc
    rw [← hi]
    exact alnum_getD_mem (g (st.rngPos + i))
  · simp only [runLines, hstep]

/-- C6, witness: concrete quarantine of the bytes of base64 line `AAAA`,
which the Span shape rejects; the suffix drawn from the constant-zero
random stream is `AAAAAAA`. -/
theorem C6_quarantine_on_codec_failure_witness :
    decode_struct_b64 pdecode (fun _ => 0) DecodeType.Span "AAAA" false initState =
      Except.ok { initState with
        files := initState.files ++
          [("otk." ++ genSuffix (fun _ => 0) initState.rngPos ++ ".bin", [0, 0, 0])],
        diag := initState.diag ++ ["error during decoding",
          "data dumped as " ++
            ("otk." ++ genSuffix (fun _ => 0) initState.rngPos ++ ".bin")],
        rngPos := initState.rngPos + 7 } ∧
    (genSuffix (fun _ => 0) initState.rngPos).length = 7 ∧
    (∀ c ∈ (genSuffix (fun _ => 0) initState.rngPos).data, c ∈ alnumChars) ∧
    runLines pdecode (fun _ => 0) DecodeType.Span false ["AAAA"] initState =
      runLines pdecode (fun _ => 0) DecodeType.Span false [] { initState with
        files := initState.files ++
          [("otk." ++ genSuffix (fun _ => 0) initState.rngPos ++ ".bin", [0, 0, 0])],
        diag := initState.diag ++ ["error during decoding",
          "data dumped as " ++
            ("otk." ++ genSuffix (fun _ => 0) initState.rngPos ++ ".bin")],
        rngPos := initState.rngPos + 7 } :=
  C6_quarantine_on_codec_failure (fun _ => 0) DecodeType.Span "AAAA" false
    initState [0, 0, 0] [] rfl rfl

/-- C8 (confirmed): the Direct pseudo-shape never invokes the wire codec
(the dispatch result is the same whatever codec dependency is supplied)
and never fails: the raw bytes are returned as the printed value for
every payload. -/
theorem C8_direct_passthrough
    (codec codec2 : MsgId → List Nat → Option (List (Nat × PValue)))
    (payload : List Nat) (pretty : Bool) :
    decode_struct codec DecodeType.Direct payload pretty =
      Except.ok (Rendered.direct payload pretty) ∧
    decode_struct codec DecodeType.Direct payload pretty =
      decode_struct codec2 DecodeType.Direct payload pretty :=
  ⟨rfl, rfl⟩

/-- C9 (confirmed): in search mode with no trace-id query, every
successfully processed line prints nothing at all: no identifier lines
and no request on primary output.  Search without a query is a
pass-through that matches nothing. -/
theorem C9_no_query_is_noop (payload : String) (verbose pretty : Bool)
    (out : SearchOut)
    (h : process payload ⟨none, verbose, pretty⟩ = Except.ok out) :
    out.ids = [] ∧ out.output = [] := by
  unfold process at h
  cases hb : base64Decode payload with
  | none =>
      simp only [hb] at h
      exact Except.noConfusion h
  | some bs =>
      simp only [hb] at h
      cases hd : decodeTraceRequest bs with
      | none =>
          simp only [hd] at h
          exact Except.noConfusion h
      | some body =>
          simp only [hd] at h
          have h2 : processBody body ⟨none, verbose, pretty⟩ = out :=
            Except.ok.inj h
          rw [← h2]
          exact ⟨rfl, rfl⟩

/-- C9, witness: the empty line decodes to the empty envelope and, with
no query, yields no identifier lines and empty primary output. -/
theorem C9_no_query_is_noop_witness :
    (⟨[], []⟩ : SearchOut).ids = [] ∧ (⟨[], []⟩ : SearchOut).output = [] :=
  C9_no_query_is_noop "" false false ⟨[], []⟩ rfl

/-- A 16-byte trace identifier for concrete examples. -/
def idA : List Nat := [1, 2, 3, 4, 5, 6, 7, 8, 9, 10, 11, 12, 13, 14, 15, 16]

/-- A second, distinct 16-byte trace identifier. -/
def idB : List Nat := [17, 18, 19, 20, 21, 22, 23, 24, 25, 26, 27, 28, 29, 30, 31, 32]

/-- A concrete request with one resource, one scope, and two spans, the
first carrying `idA` and the second `idB`. -/
def twoSpanBody : proto.ExportTraceServiceRequest :=
  ⟨[⟨[⟨[⟨idA⟩, ⟨idB⟩]⟩]⟩]⟩

/-- C2, counterexample: the claim as stated is false on two counts.  On
a request with N = 2 spans whose first span matches the query, verbose
mode prints one trace-identifier line, not two (the short-circuiting
match stops pulling from the lazy traversal right after the first
matching span), and that line is printed to standard output — the very
stream the matched request is printed on — not to a separate diagnostic
channel. -/
theorem C2_counterexample :
    (allTraceIds twoSpanBody).length = 2 ∧
    searchStdout (processBody twoSpanBody ⟨some (encodeHex idA), true, false⟩) =
      [SearchLine.ident (encodeHex idA), SearchLine.request twoSpanBody false] :=
  ⟨rfl, rfl⟩

/-- C2, amended: in search mode with a trace-id query and verbose
enabled, the visited trace-identifier lines are printed to standard
output (the primary-output stream, not a separate diagnostic channel),
one per visited span in resource-major, scope-minor, span-innermost
depth-first order, where visiting stops immediately after the first
span whose identifier equals the query: all identifiers strictly before
the first match, then the match itself, followed on the same stream by
the request print; when no span matches, all N identifiers are printed
in that order and nothing else. -/
theorem C2_verbose_stops_at_first_match (body : proto.ExportTraceServiceRequest)
    (q : String) (pretty : Bool) :
    searchStdout (processBody body ⟨some q, true, pretty⟩) =
      if q ∈ allTraceIds body
      then ((allTraceIds body).takeWhile (fun i => i != q) ++ [q]).map SearchLine.ident
           ++ [SearchLine.request body pretty]
      else (allTraceIds body).map SearchLine.ident := by
  by_cases hm : q ∈ allTraceIds body
  · have h2 : (scanIds q (allTraceIds body)).2 = true := (scanIds_snd q _).mpr hm
    simp only [searchStdout, processBody, if_pos hm, scanIds_fst q (allTraceIds body),
      if_pos rfl, h2]
    simp [if_pos hm]
  · have h2 : (scanIds q (allTraceIds body)).2 = false := by
      cases hfb : (scanIds q (allTraceIds body)).2 with
      | false => rfl
      | true => exact absurd ((scanIds_snd q _).mp hfb) hm
    simp only [searchStdout, processBody, if_neg hm, scanIds_fst q (allTraceIds body),
      if_pos rfl, h2]
    simp [if_neg hm]

/-- C3 (confirmed): for every decoded request, if some span's 16-byte
trace identifier rendered in lowercase hexadecimal equals the query then
the whole original request is put on primary output exactly once (with
the requested pretty flag); if no span matches, primary output receives
nothing, and either way the processing result is not an error. -/
theorem C3_match_prints_request_once (body : proto.ExportTraceServiceRequest)
    (q : String) (verbose pretty : Bool) :
    (processBody body ⟨some q, verbose, pretty⟩).output =
      if ∃ rs ∈ body.resource_spans, ∃ ss ∈ rs.scope_spans, ∃ sp ∈ ss.spans,
          encodeHex sp.trace_id = q
      then [(body, pretty)] else [] := by
  by_cases hm : ∃ rs ∈ body.resource_spans, ∃ ss ∈ rs.scope_spans,
      ∃ sp ∈ ss.spans, encodeHex sp.trace_id = q
  · have hq : q ∈ allTraceIds body := (mem_allTraceIds q body).mpr hm
    have h2 : (scanIds q (allTraceIds body)).2 = true := (scanIds_snd q _).mpr hq
    simp [processBody, h2, if_pos hm]
  · have hq : q ∉ allTraceIds body := fun hc => hm ((mem_allTraceIds q body).mp hc)
    have h2 : (scanIds q (allTraceIds body)).2 = false := by
      cases hfb : (scanIds q (allTraceIds body)).2 with
      | false => rfl
      | true => exact absurd ((scanIds_snd q _).mp hfb) hq
    simp [processBody, h2, if_neg hm]

/-- C4, counterexample: the claim as stated is false.  Invoking the
dispatcher on the empty byte sequence with the Span shape does not fail:
it succeeds and returns the shape's default value, because the empty
buffer is a valid wire encoding of a message with every field at its
default. -/
theorem C4_counterexample :
    decode_struct pdecode DecodeType.Span [] false =
      Except.ok (Rendered.msg MsgId.Span (defaultMsg MsgId.Span) false) := rfl

/-- C4, amended: for every one of the 13 concrete shape selectors,
invoking the dispatcher on the empty byte sequence succeeds and returns
the shape's default value, while invoking it on a sequence whose final
field is truncated (a length-delimited field header promising five more
bytes than remain) fails with a codec error; a failed decode returns no
partial value. -/
theorem C4_empty_default_truncated_rejected (name : DecodeType)
    (h : name ≠ DecodeType.Direct) :
    (∃ m, decode_struct pdecode name [] false =
        Except.ok (Rendered.msg m (defaultMsg m) false)) ∧
    decode_struct pdecode name [10, 5] false = Except.error RunError.codecError := by
  cases name
  case Direct => exact absurd rfl h
  all_goals exact ⟨⟨_, rfl⟩, rfl⟩

/-- C4, witness: the envelope shape decodes the empty sequence to its
default value and rejects the truncated sequence. -/
theorem C4_empty_default_truncated_rejected_witness :
    (∃ m, decode_struct pdecode DecodeType.ExportTraceServiceRequest [] false =
        Except.ok (Rendered.msg m (defaultMsg m) false)) ∧
    decode_struct pdecode DecodeType.ExportTraceServiceRequest [10, 5] false =
      Except.error RunError.codecError :=
  C4_empty_default_truncated_rejected DecodeType.ExportTraceServiceRequest (by decide)

/-- C5, counterexample: the claim as stated is false.  In search mode an
invalid-base64 line is not recovered: with line 1 invalid base64 and
line 2 a valid envelope, the whole run aborts with the encoding error
(and the search pipeline contains no quarantine step at all), even
though the next line would have processed successfully. -/
theorem C5_counterexample :
    base64Decode "!" = none ∧
    process "" ⟨some (encodeHex idA), false, false⟩ = Except.ok ⟨[], []⟩ ∧
    do_search ["!", ""] ⟨some (encodeHex idA), false, false⟩ =
      Except.error RunError.encodingError :=
  ⟨rfl, rfl, rfl⟩

/-- C5, amended: in search mode, a base64 encoding error or a
wire-format codec error on one input line is fatal for the whole search
run: the first failing line aborts the run with its error (no quarantine
file is written and later lines are not processed). -/
theorem C5_search_line_error_is_fatal (s : SearchOpts)
    (pre : List String) (bad : String) (post : List String)
    (hpre : ∀ l ∈ pre, ∃ o, process l s = Except.ok o)
    (hbad : ∃ e, process bad s = Except.error e) :
    ∃ e, do_search (pre ++ bad :: post) s = Except.error e := by
  revert hpre
  induction pre with
  | nil =>
      intro _
      obtain ⟨e, he⟩ := hbad
      exact ⟨e, by simp [do_search, he]⟩
  | cons l rest ih =>
      intro hpre
      obtain ⟨o, ho⟩ := hpre l (List.mem_cons_self l rest)
      obtain ⟨e, he⟩ := ih (fun l2 h2 => hpre l2 (List.mem_cons_of_mem l h2))
      refine ⟨e, ?_⟩
      have he2 : do_search (rest.append (bad :: post)) s = Except.error e := he
      simp only [List.cons_append, do_search, ho, he2]

/-- C5, witness: a concrete search run over a valid line, an invalid
line, and a trailing line aborts with an error. -/
theorem C5_search_line_error_is_fatal_witness :
    ∃ e, do_search (([""] : List String) ++ "!" :: ["x"]) ⟨none, false, false⟩ =
      Except.error e := by
  refine C5_search_line_error_is_fatal ⟨none, false, false⟩ [""] "!" ["x"]
    ?_ ⟨RunError.encodingError, rfl⟩
  intro l hl
  have hl2 : l = "" := by simpa using hl
  subst hl2
  exact ⟨⟨[], []⟩, rfl⟩

/-- The two-chunk standard-input source of the C7 counterexample: the
first read returns the field header, the second the field content. -/
def twoChunks : List (List Nat) := [[10, 5], [0, 0, 0, 0, 0]]

/-- C7, counterexample: the claim as stated is false for standard input.
Binary mode on standard input decodes only the bytes of a single
buffered read, not the entire input: on a source delivering the payload
in two chunks the run fails with a codec error on the first chunk, even
though the entire input is a valid encoding of the selected shape. -/
theorem C7_counterexample :
    do_decode_binary_stdin pdecode DecodeType.Span twoChunks false =
      Except.error RunError.codecError ∧
    do_decode_binary pdecode DecodeType.Span (read_to_end twoChunks) false =
      Except.ok [Rendered.msg MsgId.Span
        (setField (defaultMsg MsgId.Span) 1 (PValue.vbytes [0, 0, 0, 0, 0])) false] :=
  ⟨rfl, rfl⟩

/-- C7, amended: in binary mode, a file input is read in its entirety as
one contiguous byte sequence and decoded exactly once through the
dispatcher, a decode failure propagating as the run's error with no
output; standard input instead decodes only the bytes returned by one
buffered read (the first available chunk), again exactly once with the
same propagation. -/
theorem C7_binary_single_decode (name : DecodeType) (chunks : List (List Nat))
    (pretty : Bool) :
    (∀ e, decode_struct pdecode name (read_to_end chunks) pretty = Except.error e →
      do_decode_binary_file pdecode name chunks pretty = Except.error e) ∧
    (∀ r, decode_struct pdecode name (read_to_end chunks) pretty = Except.ok r →
      do_decode_binary_file pdecode name chunks pretty = Except.ok [r]) ∧
    (∀ e, decode_struct pdecode name (fill_buf chunks) pretty = Except.error e →
      do_decode_binary_stdin pdecode name chunks pretty = Except.error e) ∧
    (∀ r, decode_struct pdecode name (fill_buf chunks) pretty = Except.ok r →
      do_decode_binary_stdin pdecode name chunks pretty = Except.ok [r]) := by
  refine ⟨?_, ?_, ?_, ?_⟩
  · intro e he
    simp [do_decode_binary_file, do_decode_binary, he]
  · intro r hr
    simp [do_decode_binary_file, do_decode_binary, hr]
  · intro e he
    simp [do_decode_binary_stdin, do_decode_binary, he]
  · intro r hr
    simp [do_decode_binary_stdin, do_decode_binary, hr]

/-- C7, witness: on the concrete two-chunk source, the file path decodes
the full concatenation successfully and the standard-input path
propagates the codec error of the first chunk. -/
theorem C7_binary_single_decode_witness :
    do_decode_binary_file pdecode DecodeType.Span twoChunks false =
      Except.ok [Rendered.msg MsgId.Span
        (setField (defaultMsg MsgId.Span) 1 (PValue.vbytes [0, 0, 0, 0, 0])) false] ∧
    do_decode_binary_stdin pdecode DecodeType.Span twoChunks false =
      Except.error RunError.codecError :=
  ⟨(C7_binary_single_decode DecodeType.Span twoChunks false).2.1 _ rfl,
   (C7_binary_single_decode DecodeType.Span twoChunks false).2.2.1 _ rfl⟩

/-- C10 (confirmed): parsing a key/value argument succeeds on every
string containing an equals sign, with the key the text before the
first equals sign and the value everything after it (later equals signs
stay in the value), and fails with a parse error on every string
containing none. -/
theorem C10_keyvalue_from_str (s : String) :
    ('=' ∈ s.data →
      KeyValue.from_str s = Except.ok
        { k := String.mk (s.data.takeWhile (fun c => c != '=')),
          v := String.mk ((s.data.dropWhile (fun c => c != '=')).tail) }) ∧
    ('=' ∉ s.data →
      KeyValue.from_str s =
        Except.error (OTKError.ParseError "invalid format (expect key=value)")) := by
  constructor
  · intro hm
    unfold KeyValue.from_str
    rw [splitRemainder_spec '=' s.data, if_pos hm]
  · intro hm
    unfold KeyValue.from_str
    rw [splitRemainder_spec '=' s.data, if_neg hm]

/-- C10, witness: a string with two equals signs splits at the first,
keeping the second in the value, and a string without one fails. -/
theorem C10_keyvalue_from_str_witness :
    KeyValue.from_str "a=b=c" = Except.ok { k := "a", v := "b=c" } ∧
    KeyValue.from_str "abc" =
      Except.error (OTKError.ParseError "invalid format (expect key=value)") :=
  ⟨(C10_keyvalue_from_str "a=b=c").1 (by decide),
   (C10_keyvalue_from_str "abc").2 (by decide)⟩

end Otk
